import Mathlib

/-!
# hh-resume-up: the run of `cmd/hh-resume-up/main.go`

A shallow embedding of the one source file of the program.

* The program state is the `EnvVars` value that every function receives by
  pointer, together with two histories that only grow: `calls` and `logs`.
* `calls` has one entry per invocation of one of the four functions that talk
  to a server (`getAllMine`, `refreshToken`, `resumeUpdate`, `SendToTelegram`),
  recorded with the data of the request when the function is entered, and one
  entry per file operation of `saveEnvVarsToFile`. Whether the request could be
  built and sent, and what came back, is the outcome of the call.
* `logs` has one entry per `logger` call site that was reached. The text of a
  line is not modelled; no control flow depends on it.
* Every outcome comes from a `World`: each answer is a function of the calls
  made so far, the current one included, so that a server may answer every
  call differently.
* A decoded JSON document is a `JVal`. A type assertion `x.(T)` of the source
  is a function into `Option`; the one-result form of the assertion, which
  panics in Go on a mismatch, ends the run with `panicked`.
* `logger.Fatal` ends the process: `fatal`.

`main` is modelled from the point where `MakeEnvVars` has returned.
-/

namespace HHResumeUp

/-! ## Decoded JSON -/

/-- What `encoding/json` stores in an `interface{}`: `nil`, `bool`, `float64`
(kept as its literal text), `string`, `[]interface{}` or
`map[string]interface{}`. -/
inductive JVal where
  | null
  | bool (b : Bool)
  | num (lit : String)
  | str (s : String)
  | arr (xs : List JVal)
  | obj (kvs : List (String × JVal))

/-- A `map[string]interface{}`: the first binding of a key is its value. -/
abbrev JMap := List (String × JVal)

/-- The index expression `m[k]`: the zero value `nil` when the key is absent. -/
def index (m : JMap) (k : String) : JVal :=
  match List.lookup k m with
  | some v => v
  | none => JVal.null

/-- The assertion `x.(string)`. -/
def asString : JVal → Option String
  | JVal.str s => some s
  | _ => none

/-- The assertion `x.(bool)`. -/
def asBool : JVal → Option Bool
  | JVal.bool b => some b
  | _ => none

/-- The assertion `x.(map[string]interface{})`. -/
def asMap : JVal → Option JMap
  | JVal.obj kvs => some kvs
  | _ => none

/-- The assertion `x.([]interface{})`. -/
def asArr : JVal → Option (List JVal)
  | JVal.arr xs => some xs
  | _ => none

/-- A response body that was read in full, seen through `encoding/json`:
bytes that are not a JSON document, or the document they encode. -/
inductive Body where
  | invalid
  | json (v : JVal)

/-- The call `json.Unmarshal(body, &result)` with `result` of type
`map[string]interface{}`; `none` is a non-nil error. A nil body is not a
document; the document `null` leaves the map nil without an error; any other
document that is not an object is a type error. -/
def unmarshalMap : Option Body → Option JMap
  | some (Body.json (JVal.obj kvs)) => some kvs
  | some (Body.json JVal.null) => some []
  | _ => none

/-! ## State, histories and the outside world -/

/-- The struct `EnvVars`. -/
structure EnvVars where
  clientId : String
  clientSecret : String
  telegramToken : String
  telegramChatId : String
  accessToken : String
  refreshToken : String
deriving DecidableEq, Repr

/-- One outbound operation of the program. -/
inductive Call where
  /-- The listing attempt of `getAllMine`, with the bearer token it sends. -/
  | getMine (accessToken : String)
  /-- The refresh attempt of `refreshToken`, with the refresh token it posts. -/
  | postToken (refreshToken : String)
  /-- The publish call of `resumeUpdate`, with the resume id and bearer token. -/
  | postPublish (resumeId : String) (accessToken : String)
  /-- The notification of `SendToTelegram`: the URL it requests. -/
  | getTelegram (url : String)
  /-- The truncating `os.Create(".env")` of `saveEnvVarsToFile`. -/
  | createEnvFile
  /-- One `file.WriteString` of `saveEnvVarsToFile`. -/
  | writeString (s : String)
deriving DecidableEq, Repr

/-- One `logger` call site that was reached (the variable text it prints is
kept only where it is data of the run). -/
inductive LogLine where
  | errSendingTelegram
  | telegramStatusCodeError (status : Nat)
  | errReadingTelegram
  | errDecodingTelegram
  | fatalCreate
  | envSaved
  | errSendingRefresh
  | refreshStatusCodeError (status : Nat)
  | errReadingRefresh
  | refreshBody
  | errDecodingRefresh
  | tokenRefreshed
  | allMine
  | errCreatingRequest
  | errSendingRequest
  | mineStatusCodeError (status : Nat)
  | errReadingMine
  | mineBody
  | errCreatingUpRequest
  | errSendingUpRequest
  | resumeUpdateStatusCode (status : Nat)
  | resumeUpdated
  | errDecodingMine
  | resume (title : String) (id : String)
  | notVisibleForClients
  | errParsingUpdateTime
  | canPublishAt (title : String) (nextPublishAt : String)
  | itemsNotObject
deriving DecidableEq, Repr

/-- The state a run threads through its functions. -/
structure St where
  vars : EnvVars
  calls : List Call
  logs : List LogLine
deriving DecidableEq, Repr

/-- Record an outbound operation. -/
def St.call (st : St) (c : Call) : St :=
  { st with calls := st.calls ++ [c] }

/-- Record a logger line. -/
def St.log (st : St) (l : LogLine) : St :=
  { st with logs := st.logs ++ [l] }

/-- Outcome of `http.NewRequest` followed by `client.Do` and `io.ReadAll` in
`getAllMine`; `read = none` is a failed `io.ReadAll`. -/
inductive MineOutcome where
  | newRequestErr
  | doErr
  | resp (status : Nat) (read : Option Body)

/-- Outcome of `http.PostForm` and `io.ReadAll` in `refreshToken`. -/
inductive TokenOutcome where
  | postErr
  | resp (status : Nat) (read : Option Body)

/-- Outcome of `http.NewRequest` followed by `client.Do` in `resumeUpdate`. -/
inductive PublishOutcome where
  | newRequestErr
  | doErr
  | resp (status : Nat)
deriving DecidableEq, Repr

/-- Outcome of `http.Get` and `io.ReadAll` in `SendToTelegram`. -/
inductive TelegramOutcome where
  | getErr
  | resp (status : Nat) (read : Option Body)

/-- Everything outside the program. Each answer depends on the calls made so
far, the one being answered last. `timeParse s` says whether
`time.Parse("2006-01-02T15:04:05-0700", s)` returns a nil error. -/
structure World where
  getMine : List Call → MineOutcome
  postToken : List Call → TokenOutcome
  postPublish : List Call → PublishOutcome
  getTelegram : List Call → TelegramOutcome
  createEnvFile : List Call → Bool
  timeParse : String → Bool

/-- The constant `http.StatusOK`. -/
def StatusOK : Nat := 200

/-- The constant `http.StatusNoContent`. -/
def StatusNoContent : Nat := 204

/-- How a function that returns nothing can end. -/
inductive Exit where
  | returned
  | panicked
  | fatal
deriving DecidableEq, Repr

/-- How a run of `main` ends: at the end of the function, at one of its three
`return` statements, in a failed type assertion, or in `logger.Fatal`. -/
inductive RunEnd where
  | completed
  | decodeError
  | itemsNotArray
  | parseTimeError
  | panicked
  | fatal
deriving DecidableEq, Repr

/-! ## The functions of `main.go` -/

/-- The URL that `SendToTelegram` requests. -/
def telegramUrl (envVars : EnvVars) (message : String) : String :=
  "https://api.telegram.org/bot" ++ envVars.telegramToken ++ "/sendMessage?chat_id="
    ++ envVars.telegramChatId ++ "&text=" ++ message

/-- The function `SendToTelegram`: every path returns. -/
def SendToTelegram (w : World) (message : String) (st : St) : St :=
  let st := st.call (Call.getTelegram (telegramUrl st.vars message))
  match w.getTelegram st.calls with
  | TelegramOutcome.getErr => st.log LogLine.errSendingTelegram
  | TelegramOutcome.resp status read =>
    if status ≠ StatusOK then st.log (LogLine.telegramStatusCodeError status)
    else
      match read with
      | none => st.log LogLine.errReadingTelegram
      | some body =>
        match unmarshalMap (some body) with
        | none => st.log LogLine.errDecodingTelegram
        | some _ => st

/-- The six strings that `saveEnvVarsToFile` writes, in order. -/
def envFileLines (envVars : EnvVars) : List String :=
  [ "CLIENT_ID=" ++ envVars.clientId ++ "\n",
    "CLIENT_SECRET=" ++ envVars.clientSecret ++ "\n",
    "TELEGRAM_TOKEN=" ++ envVars.telegramToken ++ "\n",
    "TELEGRAM_CHAT_ID=" ++ envVars.telegramChatId ++ "\n",
    "ACCESS_TOKEN=" ++ envVars.accessToken ++ "\n",
    "REFRESH_TOKEN=" ++ envVars.refreshToken ++ "\n" ]

/-- The function `saveEnvVarsToFile`: `logger.Fatal` when the file cannot be
created, otherwise six writes whose results are not looked at. -/
def saveEnvVarsToFile (w : World) (st : St) : Exit × St :=
  let st := st.call Call.createEnvFile
  if w.createEnvFile st.calls then
    let st := { st with calls := st.calls ++ (envFileLines st.vars).map Call.writeString }
    (Exit.returned, st.log LogLine.envSaved)
  else
    (Exit.fatal, st.log LogLine.fatalCreate)

/-- The function `refreshToken`. -/
def refreshToken (w : World) (st : St) : Exit × St :=
  let st := st.call (Call.postToken st.vars.refreshToken)
  match w.postToken st.calls with
  | TokenOutcome.postErr => (Exit.returned, st.log LogLine.errSendingRefresh)
  | TokenOutcome.resp status read =>
    if status ≠ StatusOK then
      let st := st.log (LogLine.refreshStatusCodeError status)
      match read with
      | none => (Exit.returned, st.log LogLine.errReadingRefresh)
      | some _ => (Exit.returned, st.log LogLine.refreshBody)
    else
      match read with
      | none => (Exit.returned, st.log LogLine.errReadingRefresh)
      | some body =>
        match unmarshalMap (some body) with
        | none => (Exit.returned, st.log LogLine.errDecodingRefresh)
        | some result =>
          match asString (index result "access_token") with
          | none => (Exit.panicked, st)
          | some access =>
            let st := { st with vars := { st.vars with accessToken := access } }
            match asString (index result "refresh_token") with
            | none => (Exit.panicked, st)
            | some refresh =>
              let st := { st with vars := { st.vars with refreshToken := refresh } }
              saveEnvVarsToFile w (st.log LogLine.tokenRefreshed)

/-- The function `printAllMine`. -/
def printAllMine (st : St) : St :=
  st.log LogLine.allMine

/-- The function `getAllMine`: the body, or `none` for the nil slice. -/
def getAllMine (w : World) (st : St) : Option Body × St :=
  let st := st.call (Call.getMine st.vars.accessToken)
  match w.getMine st.calls with
  | MineOutcome.newRequestErr => (none, st.log LogLine.errCreatingRequest)
  | MineOutcome.doErr => (none, st.log LogLine.errSendingRequest)
  | MineOutcome.resp status read =>
    if status ≠ StatusOK then
      let st := st.log (LogLine.mineStatusCodeError status)
      match read with
      | none => (none, st.log LogLine.errReadingMine)
      | some _ => (none, st.log LogLine.mineBody)
    else
      match read with
      | none => (none, st.log LogLine.errReadingMine)
      | some body => (some body, st)

/-- The function `resumeUpdate`: every path returns, and returns nothing. -/
def resumeUpdate (w : World) (resumeId : String) (st : St) : St :=
  let st := st.call (Call.postPublish resumeId st.vars.accessToken)
  match w.postPublish st.calls with
  | PublishOutcome.newRequestErr => st.log LogLine.errCreatingUpRequest
  | PublishOutcome.doErr => st.log LogLine.errSendingUpRequest
  | PublishOutcome.resp status =>
    if status ≠ StatusNoContent then st.log (LogLine.resumeUpdateStatusCode status)
    else st.log LogLine.resumeUpdated

/-- Result of the visibility check of `main` (lines 252 to 259). -/
inductive Visibility where
  | proceed
  | notVisible
  | panicked
deriving DecidableEq, Repr

/-- The visibility check of `main`: the item is left only when `access` is a
map, its `type` is a map, and the `id` of that map differs from `clients`. -/
def checkAccess (item : JMap) : Visibility :=
  match asMap (index item "access") with
  | some access =>
    match asMap (index access "type") with
    | some accessType =>
      match asString (index accessType "id") with
      | none => Visibility.panicked
      | some id => if id ≠ "clients" then Visibility.notVisible else Visibility.proceed
    | none => Visibility.proceed
  | none => Visibility.proceed

/-- The text of the notification of `main`. -/
def successMessage (resumeTitle : String) : String :=
  "Успешно поднято " ++ resumeTitle

/-- One iteration of the loop of `main`: `none` when the loop goes on to the
next item, `some e` when the run ends here. -/
def processItem (w : World) (item : JVal) (st : St) : Option RunEnd × St :=
  match asMap item with
  | none => (none, st)
  | some item =>
    match asString (index item "id") with
    | none => (some RunEnd.panicked, st)
    | some resumeId =>
      match asString (index item "title") with
      | none => (some RunEnd.panicked, st)
      | some resumeTitle =>
        let st := st.log (LogLine.resume resumeTitle resumeId)
        match checkAccess item with
        | Visibility.panicked => (some RunEnd.panicked, st)
        | Visibility.notVisible => (none, st.log LogLine.notVisibleForClients)
        | Visibility.proceed =>
          if asBool (index item "can_publish_or_update") = some true then
            let st := resumeUpdate w resumeId st
            (none, SendToTelegram w (successMessage resumeTitle) st)
          else
            match asString (index item "next_publish_at") with
            | none => (some RunEnd.panicked, st)
            | some next =>
              if w.timeParse next then
                (none, st.log (LogLine.canPublishAt resumeTitle next))
              else
                (some RunEnd.parseTimeError, st.log LogLine.errParsingUpdateTime)

/-- The loop of `main` over the items of the listing. -/
def processItems (w : World) : List JVal → St → RunEnd × St
  | [], st => (RunEnd.completed, st)
  | item :: rest, st =>
    match processItem w item st with
    | (none, st) => processItems w rest st
    | (some e, st) => (e, st)

/-- The function `main` from the decoding of the listing body on. -/
def processBody (w : World) (printAll : Bool) (body : Option Body) (st : St) : RunEnd × St :=
  match unmarshalMap body with
  | none => (RunEnd.decodeError, st.log LogLine.errDecodingMine)
  | some result =>
    let st := if printAll then printAllMine st else st
    match asArr (index result "items") with
    | some items => processItems w items st
    | none => (RunEnd.itemsNotArray, st.log LogLine.itemsNotObject)

/-- The function `main`, given the flag and the `EnvVars` that `MakeEnvVars`
returned. -/
def main (w : World) (printAll : Bool) (envVars : EnvVars) : RunEnd × St :=
  match getAllMine w { vars := envVars, calls := [], logs := [] } with
  | (some body, st) => processBody w printAll (some body) st
  | (none, st) =>
    match refreshToken w st with
    | (Exit.returned, st) =>
      match getAllMine w st with
      | (body, st) => processBody w printAll body st
    | (Exit.panicked, st) => (RunEnd.panicked, st)
    | (Exit.fatal, st) => (RunEnd.fatal, st)

/-! ## Vocabulary of the claims -/

/-- The `type` map inside the `access` map of an item, when both are maps. -/
def accessType (item : JMap) : Option JMap :=
  match asMap (index item "access") with
  | some access => asMap (index access "type")
  | none => none

/-- The string `access.type.id` of an item, when it has one. -/
def accessTypeId (item : JMap) : Option String :=
  match accessType item with
  | some accessType => asString (index accessType "id")
  | none => none

/-- An item that is a map with string `id` and `title`, `access.type.id` equal
to `clients`, and `can_publish_or_update` equal to `true`. -/
def eligible (v : JVal) (id title : String) : Bool :=
  match asMap v with
  | none => false
  | some item =>
    decide (asString (index item "id") = some id)
      && decide (asString (index item "title") = some title)
      && decide (accessTypeId item = some "clients")
      && decide (asBool (index item "can_publish_or_update") = some true)

/-- The slice that `getAllMine` returns for an outcome of its request: the body
when the status is OK and the body was read, nil otherwise. -/
def MineOutcome.body : MineOutcome → Option Body
  | MineOutcome.resp status (some body) => if status = StatusOK then some body else none
  | _ => none

/-- A refresh whose request failed or whose response has a status other than
OK. -/
def TokenOutcome.rejected : TokenOutcome → Bool
  | TokenOutcome.postErr => true
  | TokenOutcome.resp status _ => decide (status ≠ StatusOK)

/-- Is the call a listing attempt? -/
def Call.isGetMine : Call → Bool
  | Call.getMine _ => true
  | _ => false

/-- Is the call a refresh attempt? -/
def Call.isPostToken : Call → Bool
  | Call.postToken _ => true
  | _ => false

/-- Is the call a publish call? -/
def Call.isPostPublish : Call → Bool
  | Call.postPublish _ _ => true
  | _ => false

/-- Is the call a notification? -/
def Call.isGetTelegram : Call → Bool
  | Call.getTelegram _ => true
  | _ => false

/-- Number of listing attempts in a history. -/
def listAttempts (calls : List Call) : Nat := calls.countP Call.isGetMine

/-- Number of refresh attempts in a history. -/
def refreshAttempts (calls : List Call) : Nat := calls.countP Call.isPostToken

/-- Number of publish calls in a history. -/
def publishCalls (calls : List Call) : Nat := calls.countP Call.isPostPublish

/-- Number of notifications in a history. -/
def notifications (calls : List Call) : Nat := calls.countP Call.isGetTelegram

/-- The resume ids of the publish calls of a history, in order. -/
def publishedIds : List Call → List String
  | [] => []
  | Call.postPublish id _ :: cs => id :: publishedIds cs
  | _ :: cs => publishedIds cs

/-- The calls that publishing and notifying the resumes `(id, title)` makes. -/
def expectedCalls (vars : EnvVars) : List (String × String) → List Call
  | [] => []
  | (id, title) :: rs =>
    Call.postPublish id vars.accessToken
      :: Call.getTelegram (telegramUrl vars (successMessage title))
      :: expectedCalls vars rs

/-! ## Sample data -/

/-- Sample credentials. -/
def sampleVars : EnvVars :=
  { clientId := "cid", clientSecret := "sec", telegramToken := "tg", telegramChatId := "42",
    accessToken := "at0", refreshToken := "rt0" }

/-- A resume item with the given id, title, visibility type and publish flag. -/
def resumeItem (id title access : String) (canPublish : Bool) : JMap :=
  [("id", JVal.str id), ("title", JVal.str title),
   ("access", JVal.obj [("type", JVal.obj [("id", JVal.str access)])]),
   ("can_publish_or_update", JVal.bool canPublish),
   ("next_publish_at", JVal.str "2024-05-01T10:00:00+0300")]

/-- A resume item without an `access` field, ready to be published. -/
def noAccessItem (id title : String) : JMap :=
  [("id", JVal.str id), ("title", JVal.str title), ("can_publish_or_update", JVal.bool true)]

/-- A clients-visible resume item that cannot be published before `next`. -/
def waitingItem (id title next : String) : JMap :=
  [("id", JVal.str id), ("title", JVal.str title),
   ("access", JVal.obj [("type", JVal.obj [("id", JVal.str "clients")])]),
   ("can_publish_or_update", JVal.bool false),
   ("next_publish_at", JVal.str next)]

/-- Three eligible resumes. -/
def threeResumes : List JVal :=
  [JVal.obj (resumeItem "r1" "Dev" "clients" true),
   JVal.obj (resumeItem "r2" "Ops" "clients" true),
   JVal.obj (resumeItem "r3" "QA" "clients" true)]

/-- A listing body with the given items. -/
def listingBody (items : List JVal) : Body :=
  Body.json (JVal.obj [("items", JVal.arr items)])

/-- The state of a run of `sampleVars` right after a first listing attempt that
succeeded. -/
def listedState : St :=
  { vars := sampleVars, calls := [Call.getMine "at0"], logs := [] }

/-- A world in which every listing attempt returns the given items, every
publish call returns 204 except for the resume `failId`, which gets 403, the
refresh is rejected with 400, and only the time `2024-05-01T10:00:00+0300`
parses. -/
def sampleWorld (items : List JVal) (failId : String) : World where
  getMine := fun _ => MineOutcome.resp 200 (some (listingBody items))
  postToken := fun _ => TokenOutcome.resp 400 (some Body.invalid)
  postPublish := fun calls =>
    if calls.getLast? = some (Call.postPublish failId "at0") then PublishOutcome.resp 403
    else PublishOutcome.resp 204
  getTelegram := fun _ => TelegramOutcome.resp 200 (some (Body.json (JVal.obj [])))
  createEnvFile := fun _ => true
  timeParse := fun s => decide (s = "2024-05-01T10:00:00+0300")

/-- A world in which the first listing attempt fails in transport, the refresh
is rejected with 400, and every later listing attempt returns the given items. -/
def flakyWorld (items : List JVal) : World :=
  { sampleWorld items "" with
    getMine := fun calls =>
      if calls = [Call.getMine "at0"] then MineOutcome.doErr
      else MineOutcome.resp 200 (some (listingBody items)) }

/-- A world in which every listing attempt is answered with 401, the refresh
returns a new token pair, and the credentials file cannot be created. -/
def readOnlyWorld : World where
  getMine := fun _ => MineOutcome.resp 401 (some Body.invalid)
  postToken := fun _ =>
    TokenOutcome.resp 200 (some (Body.json (JVal.obj
      [("access_token", JVal.str "at1"), ("refresh_token", JVal.str "rt1")])))
  postPublish := fun _ => PublishOutcome.resp 204
  getTelegram := fun _ => TelegramOutcome.getErr
  createEnvFile := fun _ => false
  timeParse := fun _ => true

/-- A world like `readOnlyWorld` in which the credentials file can be written. -/
def expiredWorld : World :=
  { readOnlyWorld with createEnvFile := fun _ => true }

/-- A world in which every listing attempt is answered with 401 and every
refresh with 400. -/
def rejectingWorld : World :=
  { readOnlyWorld with postToken := fun _ => TokenOutcome.resp 400 none }

/-! ## Lemmas on the functions -/

@[simp] theorem St.call_vars (st : St) (c : Call) : (st.call c).vars = st.vars := rfl
@[simp] theorem St.call_calls (st : St) (c : Call) : (st.call c).calls = st.calls ++ [c] := rfl
@[simp] theorem St.call_logs (st : St) (c : Call) : (st.call c).logs = st.logs := rfl
@[simp] theorem St.log_vars (st : St) (l : LogLine) : (st.log l).vars = st.vars := rfl
@[simp] theorem St.log_calls (st : St) (l : LogLine) : (st.log l).calls = st.calls := rfl
@[simp] theorem St.log_logs (st : St) (l : LogLine) : (st.log l).logs = st.logs ++ [l] := rfl

theorem checkAccess_of_id (item : JMap) (s : String) (h : accessTypeId item = some s) :
    checkAccess item = if s ≠ "clients" then Visibility.notVisible else Visibility.proceed := by
  unfold accessTypeId accessType at h
  unfold checkAccess
  cases ha : asMap (index item "access") with
  | none => simp [ha] at h
  | some access =>
    simp only [ha] at h
    cases ht : asMap (index access "type") with
    | none => simp [ht] at h
    | some accessType =>
      simp only [ht] at h
      simp [ht, h]

theorem checkAccess_absent (item : JMap) (h : accessType item = none) :
    checkAccess item = Visibility.proceed := by
  unfold accessType at h
  unfold checkAccess
  cases ha : asMap (index item "access") with
  | none => rfl
  | some access =>
    simp only [ha] at h
    simp [h]

theorem resumeUpdate_vars (w : World) (id : String) (st : St) :
    (resumeUpdate w id st).vars = st.vars := by
  simp only [resumeUpdate]
  split <;> try split
  all_goals simp

theorem resumeUpdate_calls (w : World) (id : String) (st : St) :
    (resumeUpdate w id st).calls = st.calls ++ [Call.postPublish id st.vars.accessToken] := by
  simp only [resumeUpdate]
  split <;> try split
  all_goals simp

theorem SendToTelegram_vars (w : World) (message : String) (st : St) :
    (SendToTelegram w message st).vars = st.vars := by
  simp only [SendToTelegram]
  split
  · simp
  · split
    · simp
    · split
      · simp
      · split <;> simp

theorem SendToTelegram_calls (w : World) (message : String) (st : St) :
    (SendToTelegram w message st).calls
      = st.calls ++ [Call.getTelegram (telegramUrl st.vars message)] := by
  simp only [SendToTelegram]
  split
  · simp
  · split
    · simp
    · split
      · simp
      · split <;> simp

theorem processItem_publish (w : World) (item : JMap) (id title : String) (st : St)
    (hid : asString (index item "id") = some id)
    (htitle : asString (index item "title") = some title)
    (hv : checkAccess item = Visibility.proceed)
    (hcp : asBool (index item "can_publish_or_update") = some true) :
    processItem w (JVal.obj item) st
      = (none, SendToTelegram w (successMessage title)
          (resumeUpdate w id (st.log (LogLine.resume title id)))) := by
  simp [processItem, asMap, hid, htitle, hv, hcp]

theorem processItem_notVisible (w : World) (item : JMap) (id title : String) (st : St)
    (hid : asString (index item "id") = some id)
    (htitle : asString (index item "title") = some title)
    (hv : checkAccess item = Visibility.notVisible) :
    processItem w (JVal.obj item) st
      = (none, (st.log (LogLine.resume title id)).log LogLine.notVisibleForClients) := by
  simp [processItem, asMap, hid, htitle, hv]

theorem processItem_badTime (w : World) (item : JMap) (id title next : String) (st : St)
    (hid : asString (index item "id") = some id)
    (htitle : asString (index item "title") = some title)
    (hv : checkAccess item = Visibility.proceed)
    (hcp : asBool (index item "can_publish_or_update") = some false)
    (hnext : asString (index item "next_publish_at") = some next)
    (hparse : w.timeParse next = false) :
    processItem w (JVal.obj item) st
      = (some RunEnd.parseTimeError,
          (st.log (LogLine.resume title id)).log LogLine.errParsingUpdateTime) := by
  simp [processItem, asMap, hid, htitle, hv, hcp, hnext, hparse]

theorem processItem_ne_completed (w : World) (item : JVal) (st : St) :
    (processItem w item st).1 ≠ some RunEnd.completed := by
  simp only [processItem]
  repeat' split
  all_goals simp

theorem processItem_calls (w : World) (item : JVal) (st : St) :
    (processItem w item st).2.calls = st.calls ∨
    ∃ id title, (processItem w item st).2.calls
      = st.calls ++ [Call.postPublish id st.vars.accessToken,
          Call.getTelegram (telegramUrl st.vars (successMessage title))] := by
  simp only [processItem]
  repeat' split
  all_goals first
    | (left; simp; done)
    | (right
       exact ⟨_, _, by
         rw [SendToTelegram_calls, resumeUpdate_calls, resumeUpdate_vars, List.append_assoc]
         rfl⟩)

theorem processItems_cons_next (w : World) (item : JVal) (rest : List JVal) (st st1 : St)
    (h : processItem w item st = (none, st1)) :
    processItems w (item :: rest) st = processItems w rest st1 := by
  simp [processItems, h]

theorem processItems_cons_stop (w : World) (item : JVal) (rest : List JVal) (st st1 : St)
    (e : RunEnd) (h : processItem w item st = (some e, st1)) :
    processItems w (item :: rest) st = (e, st1) := by
  simp [processItems, h]

theorem processItems_append_completed (w : World) (pre post : List JVal) (st st1 : St)
    (h : processItems w pre st = (RunEnd.completed, st1)) :
    processItems w (pre ++ post) st = processItems w post st1 := by
  induction pre generalizing st with
  | nil =>
    simp [processItems] at h
    simp [h]
  | cons item pre ih =>
    rcases hp : processItem w item st with ⟨_ | e, st2⟩
    · rw [processItems_cons_next w item pre st st2 hp] at h
      rw [List.cons_append, processItems_cons_next w item (pre ++ post) st st2 hp]
      exact ih st2 h
    · rw [processItems_cons_stop w item pre st st2 e hp] at h
      have hne := processItem_ne_completed w item st
      rw [hp] at hne
      simp at h
      exact absurd (by rw [h.1]) hne

theorem processItems_append_stopped (w : World) (pre post : List JVal) (st : St)
    (h : (processItems w pre st).1 ≠ RunEnd.completed) :
    processItems w (pre ++ post) st = processItems w pre st := by
  induction pre generalizing st with
  | nil => simp [processItems] at h
  | cons item pre ih =>
    rcases hp : processItem w item st with ⟨_ | e, st2⟩
    · rw [processItems_cons_next w item pre st st2 hp] at h
      rw [List.cons_append, processItems_cons_next w item (pre ++ post) st st2 hp,
        processItems_cons_next w item pre st st2 hp]
      exact ih st2 h
    · rw [List.cons_append, processItems_cons_stop w item (pre ++ post) st st2 e hp,
        processItems_cons_stop w item pre st st2 e hp]

/-- The publish branch of the loop body: one `resumeUpdate`, one
`SendToTelegram`, then the next item. -/
theorem processItems_cons_publish (w : World) (item : JMap) (id title : String)
    (rest : List JVal) (st : St)
    (hid : asString (index item "id") = some id)
    (htitle : asString (index item "title") = some title)
    (hv : checkAccess item = Visibility.proceed)
    (hcp : asBool (index item "can_publish_or_update") = some true) :
    ∃ st2, processItems w (JVal.obj item :: rest) st = processItems w rest st2
      ∧ st2.vars = st.vars
      ∧ st2.calls = st.calls ++
          [Call.postPublish id st.vars.accessToken,
           Call.getTelegram (telegramUrl st.vars (successMessage title))] := by
  refine ⟨SendToTelegram w (successMessage title)
    (resumeUpdate w id (st.log (LogLine.resume title id))), ?_, ?_, ?_⟩
  · exact processItems_cons_next w _ rest st _
      (processItem_publish w item id title st hid htitle hv hcp)
  · rw [SendToTelegram_vars, resumeUpdate_vars]; rfl
  · rw [SendToTelegram_calls, resumeUpdate_calls, resumeUpdate_vars, List.append_assoc]
    rfl

theorem processItems_eligible (w : World) (rs : List (JVal × String × String))
    (h : ∀ r ∈ rs, eligible r.1 r.2.1 r.2.2 = true) (st : St) :
    (processItems w (rs.map Prod.fst) st).1 = RunEnd.completed
      ∧ (processItems w (rs.map Prod.fst) st).2.vars = st.vars
      ∧ (processItems w (rs.map Prod.fst) st).2.calls
          = st.calls ++ expectedCalls st.vars (rs.map Prod.snd) := by
  induction rs generalizing st with
  | nil => simp [processItems, expectedCalls]
  | cons r rs ih =>
    obtain ⟨v, id, title⟩ := r
    have hr := h (v, id, title) (List.mem_cons_self _ _)
    simp only [eligible] at hr
    cases hv : asMap v with
    | none => simp [hv] at hr
    | some item =>
      simp only [hv, Bool.and_eq_true, decide_eq_true_eq] at hr
      obtain ⟨⟨⟨hid, htitle⟩, hvis⟩, hcp⟩ := hr
      have hobj : v = JVal.obj item := by
        cases v <;> simp [asMap] at hv
        rw [hv]
      have hacc : checkAccess item = Visibility.proceed := by
        rw [checkAccess_of_id item "clients" hvis]; simp
      obtain ⟨st2, hstep, hvars, hcalls⟩ :=
        processItems_cons_publish w item id title (rs.map Prod.fst) st hid htitle hacc hcp
      have ih2 := ih (fun r hr => h r (List.mem_cons_of_mem _ hr)) st2
      simp only [List.map_cons, hobj, hstep]
      refine ⟨ih2.1, by rw [ih2.2.1, hvars], ?_⟩
      rw [ih2.2.2, hcalls, hvars]
      simp [expectedCalls]

theorem publishedIds_append (xs ys : List Call) :
    publishedIds (xs ++ ys) = publishedIds xs ++ publishedIds ys := by
  induction xs with
  | nil => rfl
  | cons c xs ih => cases c <;> simp [publishedIds, ih]

theorem publishedIds_expectedCalls (vars : EnvVars) (rs : List (String × String)) :
    publishedIds (expectedCalls vars rs) = rs.map Prod.fst := by
  induction rs with
  | nil => rfl
  | cons r rs ih =>
    obtain ⟨id, title⟩ := r
    simp [expectedCalls, publishedIds, ih]

theorem getAllMine_fst (w : World) (st : St) :
    (getAllMine w st).1 = (w.getMine (st.calls ++ [Call.getMine st.vars.accessToken])).body := by
  simp only [getAllMine, St.call_calls]
  cases w.getMine (st.calls ++ [Call.getMine st.vars.accessToken]) with
  | newRequestErr => rfl
  | doErr => rfl
  | resp status read =>
    by_cases hs : status = StatusOK <;> cases read <;> simp [MineOutcome.body, hs]

theorem getAllMine_vars (w : World) (st : St) : (getAllMine w st).2.vars = st.vars := by
  simp only [getAllMine]
  repeat' split
  all_goals simp

theorem getAllMine_calls (w : World) (st : St) :
    (getAllMine w st).2.calls = st.calls ++ [Call.getMine st.vars.accessToken] := by
  simp only [getAllMine]
  repeat' split
  all_goals simp

theorem counts_append_getMine (calls : List Call) (token : String) :
    listAttempts (calls ++ [Call.getMine token]) = listAttempts calls + 1
      ∧ refreshAttempts (calls ++ [Call.getMine token]) = refreshAttempts calls
      ∧ publishCalls (calls ++ [Call.getMine token]) = publishCalls calls
      ∧ notifications (calls ++ [Call.getMine token]) = notifications calls := by
  simp [listAttempts, refreshAttempts, publishCalls, notifications, List.countP_append,
    List.countP_cons, Call.isGetMine, Call.isPostToken, Call.isPostPublish, Call.isGetTelegram]

theorem refreshToken_rejected (w : World) (st : St)
    (h : (w.postToken (st.calls ++ [Call.postToken st.vars.refreshToken])).rejected = true) :
    (refreshToken w st).1 = Exit.returned
      ∧ (refreshToken w st).2.vars = st.vars
      ∧ (refreshToken w st).2.calls = st.calls ++ [Call.postToken st.vars.refreshToken] := by
  simp only [refreshToken, St.call_calls]
  cases ho : w.postToken (st.calls ++ [Call.postToken st.vars.refreshToken]) with
  | postErr => simp
  | resp status read =>
    rw [ho] at h
    have hs : status ≠ StatusOK := by simpa [TokenOutcome.rejected] using h
    cases read <;> simp [hs]

/-- A refresh adds one refresh attempt and, when it stores new tokens, file
operations; nothing else. -/
theorem refreshToken_counts (w : World) (st : St) :
    listAttempts (refreshToken w st).2.calls = listAttempts st.calls
      ∧ refreshAttempts (refreshToken w st).2.calls = refreshAttempts st.calls + 1
      ∧ publishCalls (refreshToken w st).2.calls = publishCalls st.calls
      ∧ notifications (refreshToken w st).2.calls = notifications st.calls := by
  simp only [refreshToken, saveEnvVarsToFile]
  repeat' split
  all_goals
    simp [listAttempts, refreshAttempts, publishCalls, notifications, List.countP_append,
      List.countP_cons, envFileLines, Call.isGetMine, Call.isPostToken, Call.isPostPublish,
      Call.isGetTelegram]

theorem processItem_counts (w : World) (item : JVal) (st : St) :
    listAttempts (processItem w item st).2.calls = listAttempts st.calls
      ∧ refreshAttempts (processItem w item st).2.calls = refreshAttempts st.calls := by
  rcases processItem_calls w item st with h | ⟨id, title, h⟩
  · rw [h]; exact ⟨rfl, rfl⟩
  · rw [h]
    simp [listAttempts, refreshAttempts, List.countP_append, List.countP_cons,
      Call.isGetMine, Call.isPostToken]

theorem processItems_counts (w : World) (items : List JVal) (st : St) :
    listAttempts (processItems w items st).2.calls = listAttempts st.calls
      ∧ refreshAttempts (processItems w items st).2.calls = refreshAttempts st.calls := by
  induction items generalizing st with
  | nil => exact ⟨rfl, rfl⟩
  | cons item rest ih =>
    have hc := processItem_counts w item st
    rcases hp : processItem w item st with ⟨_ | e, st2⟩
    · rw [processItems_cons_next w item rest st st2 hp]
      rw [hp] at hc
      exact ⟨(ih st2).1.trans hc.1, (ih st2).2.trans hc.2⟩
    · rw [processItems_cons_stop w item rest st st2 e hp]
      rw [hp] at hc
      exact hc

theorem processBody_counts (w : World) (printAll : Bool) (body : Option Body) (st : St) :
    listAttempts (processBody w printAll body st).2.calls = listAttempts st.calls
      ∧ refreshAttempts (processBody w printAll body st).2.calls
          = refreshAttempts st.calls := by
  simp only [processBody]
  split
  · exact ⟨rfl, rfl⟩
  · split
    · have h := processItems_counts w ‹List JVal› (if printAll then printAllMine st else st)
      cases printAll <;> simpa [printAllMine] using h
    · cases printAll <;> exact ⟨rfl, rfl⟩

theorem processBody_nil (w : World) (printAll : Bool) (st : St) :
    processBody w printAll none st = (RunEnd.decodeError, st.log LogLine.errDecodingMine) := by
  simp [processBody, unmarshalMap]

/-- The run when the first listing attempt returns a body. -/
theorem main_listed (w : World) (printAll : Bool) (envVars : EnvVars) (body : Body)
    (h : (w.getMine [Call.getMine envVars.accessToken]).body = some body) :
    ∃ st1, main w printAll envVars = processBody w printAll (some body) st1
      ∧ st1.vars = envVars ∧ st1.calls = [Call.getMine envVars.accessToken] := by
  have hf := getAllMine_fst w { vars := envVars, calls := [], logs := [] }
  have hv := getAllMine_vars w { vars := envVars, calls := [], logs := [] }
  have hc := getAllMine_calls w { vars := envVars, calls := [], logs := [] }
  simp only [List.nil_append] at hf hc
  rw [h] at hf
  rcases hg : getAllMine w { vars := envVars, calls := [], logs := [] } with ⟨b, st1⟩
  rw [hg] at hf hv hc
  simp only at hf hv hc
  refine ⟨st1, ?_, hv, hc⟩
  simp only [main, hg, hf]

/-- The run when the first listing attempt returns a body that decodes to a map
with an `items` array: the loop over these items, started after that attempt. -/
theorem main_processItems (w : World) (printAll : Bool) (envVars : EnvVars) (body : Body)
    (result : JMap) (items : List JVal)
    (h : (w.getMine [Call.getMine envVars.accessToken]).body = some body)
    (hresult : unmarshalMap (some body) = some result)
    (hitems : asArr (index result "items") = some items) :
    ∃ st1, main w printAll envVars = processItems w items st1
      ∧ st1.vars = envVars ∧ st1.calls = [Call.getMine envVars.accessToken] := by
  obtain ⟨st1, hmain, hv, hc⟩ := main_listed w printAll envVars body h
  refine ⟨if printAll then printAllMine st1 else st1, ?_, ?_, ?_⟩
  · rw [hmain]
    simp only [processBody, hresult, hitems]
  · cases printAll <;> simpa [printAllMine] using hv
  · cases printAll <;> simpa [printAllMine] using hc

/-- The run when the first listing attempt fails: the refresh is called, and
when it returns a second listing attempt is made. -/
theorem main_retry (w : World) (printAll : Bool) (envVars : EnvVars)
    (h : (w.getMine [Call.getMine envVars.accessToken]).body = none) :
    ∃ st1, st1.vars = envVars ∧ st1.calls = [Call.getMine envVars.accessToken]
      ∧ main w printAll envVars =
          match refreshToken w st1 with
          | (Exit.returned, st2) =>
            processBody w printAll (getAllMine w st2).1 (getAllMine w st2).2
          | (Exit.panicked, st2) => (RunEnd.panicked, st2)
          | (Exit.fatal, st2) => (RunEnd.fatal, st2) := by
  have hf := getAllMine_fst w { vars := envVars, calls := [], logs := [] }
  have hv := getAllMine_vars w { vars := envVars, calls := [], logs := [] }
  have hc := getAllMine_calls w { vars := envVars, calls := [], logs := [] }
  simp only [List.nil_append] at hf hc
  rw [h] at hf
  rcases hg : getAllMine w { vars := envVars, calls := [], logs := [] } with ⟨b, st1⟩
  rw [hg] at hf hv hc
  simp only at hf hv hc
  refine ⟨st1, hv, hc, ?_⟩
  simp only [main, hg, hf]

/-- The loop only adds calls to the history. -/
theorem processItems_calls_extend (w : World) (items : List JVal) (st : St) :
    ∃ more, (processItems w items st).2.calls = st.calls ++ more := by
  induction items generalizing st with
  | nil => exact ⟨[], by simp [processItems]⟩
  | cons item rest ih =>
    have hstep : ∃ one, (processItem w item st).2.calls = st.calls ++ one := by
      rcases processItem_calls w item st with h | ⟨id, title, h⟩
      · exact ⟨[], by rw [h]; simp⟩
      · exact ⟨_, h⟩
    obtain ⟨one, hone⟩ := hstep
    rcases hp : processItem w item st with ⟨_ | e, st2⟩
    · rw [hp] at hone
      obtain ⟨more, hmore⟩ := ih st2
      refine ⟨one ++ more, ?_⟩
      rw [processItems_cons_next w item rest st st2 hp, hmore, hone, List.append_assoc]
    · rw [hp] at hone
      exact ⟨one, by rw [processItems_cons_stop w item rest st st2 e hp]; exact hone⟩

/-- The publish branch at any place of a listing: when the items before the
item were processed to the end, the run makes its publish call and its
notification next, and goes on with the items after it. -/
theorem processItems_reach_publish (w : World) (item : JMap) (id title : String)
    (pre post : List JVal) (st st1 : St)
    (hid : asString (index item "id") = some id)
    (htitle : asString (index item "title") = some title)
    (hv : checkAccess item = Visibility.proceed)
    (hcp : asBool (index item "can_publish_or_update") = some true)
    (hpre : processItems w pre st = (RunEnd.completed, st1)) :
    ∃ more,
      (processItems w (pre ++ JVal.obj item :: post) st).2.calls
        = st1.calls ++
            [Call.postPublish id st1.vars.accessToken,
             Call.getTelegram (telegramUrl st1.vars (successMessage title))] ++ more
      ∧ processItems w (pre ++ JVal.obj item :: post) st
        = processItems w post (SendToTelegram w (successMessage title)
            (resumeUpdate w id (st1.log (LogLine.resume title id))))
      ∧ (post = [] →
          more = [] ∧ (processItems w (pre ++ JVal.obj item :: post) st).1 = RunEnd.completed) := by
  have hstep : processItems w (pre ++ JVal.obj item :: post) st
      = processItems w post (SendToTelegram w (successMessage title)
          (resumeUpdate w id (st1.log (LogLine.resume title id)))) := by
    rw [processItems_append_completed w pre _ st st1 hpre]
    exact processItems_cons_next w _ post st1 _
      (processItem_publish w item id title st1 hid htitle hv hcp)
  have hcalls : (SendToTelegram w (successMessage title)
      (resumeUpdate w id (st1.log (LogLine.resume title id)))).calls
      = st1.calls ++
          [Call.postPublish id st1.vars.accessToken,
           Call.getTelegram (telegramUrl st1.vars (successMessage title))] := by
    rw [SendToTelegram_calls, resumeUpdate_calls, resumeUpdate_vars, List.append_assoc]
    rfl
  obtain ⟨more, hmore⟩ := processItems_calls_extend w post
    (SendToTelegram w (successMessage title)
      (resumeUpdate w id (st1.log (LogLine.resume title id))))
  refine ⟨more, ?_, hstep, ?_⟩
  · rw [hstep, hmore, hcalls]
  · intro hpost
    subst hpost
    rw [hstep]
    simp only [processItems] at hmore ⊢
    rw [hcalls] at hmore
    exact ⟨by simpa using hmore, trivial⟩

/-- The counts of a run whose first listing attempt returns a body. -/
theorem main_counts_listed (w : World) (printAll : Bool) (envVars : EnvVars)
    (h : (w.getMine [Call.getMine envVars.accessToken]).body ≠ none) :
    listAttempts (main w printAll envVars).2.calls = 1
      ∧ refreshAttempts (main w printAll envVars).2.calls = 0 := by
  cases hb : (w.getMine [Call.getMine envVars.accessToken]).body with
  | none => exact absurd hb h
  | some body =>
    obtain ⟨st1, hmain, _, hc1⟩ := main_listed w printAll envVars body hb
    have hcnt := processBody_counts w printAll (some body) st1
    rw [hmain, hcnt.1, hcnt.2, hc1]
    simp [listAttempts, refreshAttempts, Call.isGetMine, Call.isPostToken]

/-- The counts of a run whose first listing attempt fails: one refresh attempt,
and a second listing attempt exactly when the refresh call returns. -/
theorem main_counts_retry (w : World) (printAll : Bool) (envVars : EnvVars)
    (h : (w.getMine [Call.getMine envVars.accessToken]).body = none) :
    refreshAttempts (main w printAll envVars).2.calls = 1
      ∧ ((refreshToken w (getAllMine w { vars := envVars, calls := [], logs := [] }).2).1
            = Exit.returned →
          listAttempts (main w printAll envVars).2.calls = 2)
      ∧ ((refreshToken w (getAllMine w { vars := envVars, calls := [], logs := [] }).2).1
            ≠ Exit.returned →
          listAttempts (main w printAll envVars).2.calls = 1
          ∧ publishCalls (main w printAll envVars).2.calls = 0
          ∧ notifications (main w printAll envVars).2.calls = 0
          ∧ (main w printAll envVars).1 ≠ RunEnd.completed) := by
  have hf := getAllMine_fst w { vars := envVars, calls := [], logs := [] }
  have hc := getAllMine_calls w { vars := envVars, calls := [], logs := [] }
  simp only [List.nil_append] at hf hc
  rw [h] at hf
  rcases hg : getAllMine w { vars := envVars, calls := [], logs := [] } with ⟨b, st1⟩
  rw [hg] at hf hc
  simp only at hf hc
  subst hf
  have hcnt := refreshToken_counts w st1
  rw [hc] at hcnt
  simp only [main, hg]
  rcases hr : refreshToken w st1 with ⟨e, st2⟩
  rw [hr] at hcnt
  simp only at hcnt
  obtain ⟨hl, hrf, hp, hn⟩ := hcnt
  cases e with
  | returned =>
    have hb := processBody_counts w printAll (getAllMine w st2).1 (getAllMine w st2).2
    have hc2 := getAllMine_calls w st2
    have hcnt2 := counts_append_getMine st2.calls st2.vars.accessToken
    simp only [hb.1, hb.2, hc2, hcnt2.1, hcnt2.2.1, hl, hrf]
    simp [listAttempts, refreshAttempts, Call.isGetMine, Call.isPostToken]
  | panicked =>
    simp only [hl, hrf, hp, hn]
    simp [listAttempts, refreshAttempts, publishCalls, notifications, Call.isGetMine,
      Call.isPostToken, Call.isPostPublish, Call.isGetTelegram]
  | fatal =>
    simp only [hl, hrf, hp, hn]
    simp [listAttempts, refreshAttempts, publishCalls, notifications, Call.isGetMine,
      Call.isPostToken, Call.isPostPublish, Call.isGetTelegram]

/-! ## The example scenarios -/

/-- The first example scenario of the specification: the listing with the one
item r1 titled Dev, visible to clients and ready to be published, gives one
listing attempt, one publish call for r1 and one notification with the title. -/
theorem scenario_clients :
    main (sampleWorld [JVal.obj (resumeItem "r1" "Dev" "clients" true)] "") false sampleVars
      = (RunEnd.completed,
          { vars := sampleVars,
            calls := [Call.getMine "at0", Call.postPublish "r1" "at0",
              Call.getTelegram
                "https://api.telegram.org/bottg/sendMessage?chat_id=42&text=Успешно поднято Dev"],
            logs := [LogLine.resume "Dev" "r1", LogLine.resumeUpdated] }) := by
  decide

/-- The second example scenario of the specification: the same item with
visibility `site` gives the listing attempt only, and a logged skip. -/
theorem scenario_site :
    main (sampleWorld [JVal.obj (resumeItem "r1" "Dev" "site" true)] "") false sampleVars
      = (RunEnd.completed,
          { vars := sampleVars,
            calls := [Call.getMine "at0"],
            logs := [LogLine.resume "Dev" "r1", LogLine.notVisibleForClients] }) := by
  decide

/-! ## The claims -/

/-- C1, as the code has it: a listing item (a map with string `id` and `title`)
that is visible to clients (its `access.type.id` is `clients`) and whose
`can_publish_or_update` is `true`, and that the run reaches (the items before it
in the listing were processed to the end), gets exactly one publish call with
its id, followed by exactly one notification whose requested text is the
success phrase followed by its title. The notification is sent whatever the
publish call returns, so also when it returns "no content". These two calls
come right after the calls made before the item; what follows them is what the
items after it add, and nothing when the item is the last one. -/
theorem publish_clients_item (w : World) (item : JMap) (id title : String)
    (pre post : List JVal) (st st1 : St)
    (hid : asString (index item "id") = some id)
    (htitle : asString (index item "title") = some title)
    (hvis : accessTypeId item = some "clients")
    (hcp : asBool (index item "can_publish_or_update") = some true)
    (hpre : processItems w pre st = (RunEnd.completed, st1)) :
    ∃ more,
      (processItems w (pre ++ JVal.obj item :: post) st).2.calls
        = st1.calls ++
            [Call.postPublish id st1.vars.accessToken,
             Call.getTelegram ("https://api.telegram.org/bot" ++ st1.vars.telegramToken
               ++ "/sendMessage?chat_id=" ++ st1.vars.telegramChatId
               ++ "&text=" ++ ("Успешно поднято " ++ title))] ++ more
      ∧ processItems w (pre ++ JVal.obj item :: post) st
        = processItems w post (SendToTelegram w ("Успешно поднято " ++ title)
            (resumeUpdate w id (st1.log (LogLine.resume title id))))
      ∧ (post = [] →
          more = [] ∧ (processItems w (pre ++ JVal.obj item :: post) st).1 = RunEnd.completed) := by
  have hv : checkAccess item = Visibility.proceed := by
    rw [checkAccess_of_id item "clients" hvis]; simp
  exact processItems_reach_publish w item id title pre post st st1 hid htitle hv hcp hpre

/-- Witness of the amended C1: a skipped item, then the item r1 titled Dev. -/
theorem publish_clients_item_witness :
    (asString (index (resumeItem "r1" "Dev" "clients" true) "id") = some "r1"
      ∧ asString (index (resumeItem "r1" "Dev" "clients" true) "title") = some "Dev"
      ∧ accessTypeId (resumeItem "r1" "Dev" "clients" true) = some "clients"
      ∧ asBool (index (resumeItem "r1" "Dev" "clients" true) "can_publish_or_update")
          = some true
      ∧ processItems (sampleWorld [] "") [JVal.obj (resumeItem "r0" "Old" "site" true)]
          listedState
        = (RunEnd.completed,
            { vars := sampleVars, calls := [Call.getMine "at0"],
              logs := [LogLine.resume "Old" "r0", LogLine.notVisibleForClients] }))
    ∧ (processItems (sampleWorld [] "")
        ([JVal.obj (resumeItem "r0" "Old" "site" true)]
          ++ JVal.obj (resumeItem "r1" "Dev" "clients" true) :: []) listedState).2.calls
      = [Call.getMine "at0", Call.postPublish "r1" "at0",
          Call.getTelegram
            "https://api.telegram.org/bottg/sendMessage?chat_id=42&text=Успешно поднято Dev"] := by
  refine ⟨⟨by decide, by decide, by decide, by decide, by decide⟩, ?_⟩
  obtain ⟨more, hcalls, _, hlast⟩ :=
    publish_clients_item (sampleWorld [] "") (resumeItem "r1" "Dev" "clients" true) "r1" "Dev"
      [JVal.obj (resumeItem "r0" "Old" "site" true)] [] listedState
      { vars := sampleVars, calls := [Call.getMine "at0"],
        logs := [LogLine.resume "Old" "r0", LogLine.notVisibleForClients] }
      (by decide) (by decide) (by decide) (by decide) (by decide)
  rw [hcalls, (hlast rfl).1]
  decide

/-- Counterexample to C1 as stated: the listing has an item whose time does not
parse before the eligible item r3; the run ends at the first item, and r3 gets
no publish call and no notification. -/
theorem eligible_item_not_reached :
    eligible (JVal.obj (resumeItem "r3" "QA" "clients" true)) "r3" "QA" = true
    ∧ main (sampleWorld [JVal.obj (waitingItem "r2" "Ops" "tomorrow"),
          JVal.obj (resumeItem "r3" "QA" "clients" true)] "") false sampleVars
      = (RunEnd.parseTimeError,
          { vars := sampleVars,
            calls := [Call.getMine "at0"],
            logs := [LogLine.resume "Ops" "r2", LogLine.errParsingUpdateTime] })
    ∧ publishCalls (main (sampleWorld [JVal.obj (waitingItem "r2" "Ops" "tomorrow"),
          JVal.obj (resumeItem "r3" "QA" "clients" true)] "") false sampleVars).2.calls = 0
    ∧ notifications (main (sampleWorld [JVal.obj (waitingItem "r2" "Ops" "tomorrow"),
          JVal.obj (resumeItem "r3" "QA" "clients" true)] "") false sampleVars).2.calls = 0 := by
  decide

/-- C2: a listing item (a map with string `id` and `title`) whose
`access.type.id` is a string other than `clients` gets no publish call and no
notification when the loop comes to it, whatever its `can_publish_or_update` and
`next_publish_at` fields hold: the loop logs the skip, leaves the calls and the
credentials as they were, and goes on to the items after it. -/
theorem skip_other_access (w : World) (item : JMap) (id title access : String)
    (rest : List JVal) (st : St)
    (hid : asString (index item "id") = some id)
    (htitle : asString (index item "title") = some title)
    (hacc : accessTypeId item = some access) (hne : access ≠ "clients") :
    ∃ st2, processItems w (JVal.obj item :: rest) st = processItems w rest st2
      ∧ st2.vars = st.vars
      ∧ st2.calls = st.calls
      ∧ st2.logs = st.logs ++ [LogLine.resume title id, LogLine.notVisibleForClients] := by
  have hv : checkAccess item = Visibility.notVisible := by
    rw [checkAccess_of_id item access hacc]; simp [hne]
  refine ⟨(st.log (LogLine.resume title id)).log LogLine.notVisibleForClients, ?_, rfl, rfl, ?_⟩
  · exact processItems_cons_next w _ rest st _
      (processItem_notVisible w item id title st hid htitle hv)
  · simp

/-- Witness of C2: the item r1 with visibility `site` and the publish flag set,
followed by an eligible item. -/
theorem skip_other_access_witness :
    (asString (index (resumeItem "r1" "Dev" "site" true) "id") = some "r1"
      ∧ asString (index (resumeItem "r1" "Dev" "site" true) "title") = some "Dev"
      ∧ accessTypeId (resumeItem "r1" "Dev" "site" true) = some "site"
      ∧ "site" ≠ "clients")
    ∧ ∃ st2, processItems (sampleWorld [] "")
          [JVal.obj (resumeItem "r1" "Dev" "site" true),
           JVal.obj (resumeItem "r2" "Ops" "clients" true)] listedState
        = processItems (sampleWorld [] "") [JVal.obj (resumeItem "r2" "Ops" "clients" true)] st2
      ∧ st2.vars = listedState.vars
      ∧ st2.calls = listedState.calls
      ∧ st2.logs = listedState.logs
          ++ [LogLine.resume "Dev" "r1", LogLine.notVisibleForClients] :=
  ⟨⟨by decide, by decide, by decide, by decide⟩,
    skip_other_access (sampleWorld [] "") (resumeItem "r1" "Dev" "site" true) "r1" "Dev" "site"
      [JVal.obj (resumeItem "r2" "Ops" "clients" true)] listedState
      (by decide) (by decide) (by decide) (by decide)⟩

/-- C3, as the code has it: a listing item (a map with string `id` and `title`)
in which the access type is absent (no `access` map, or no `type` map inside
it) is not skipped. When the run reaches it (the items before it in the listing
were processed to the end) and its `can_publish_or_update` is `true`, it gets
exactly one publish call with its id followed by exactly one notification with
its title, right after the calls made before the item; the loop does not fail
on it and goes on with the items after it, and completes when it is the last. -/
theorem publish_absent_access (w : World) (item : JMap) (id title : String)
    (pre post : List JVal) (st st1 : St)
    (hid : asString (index item "id") = some id)
    (htitle : asString (index item "title") = some title)
    (habsent : accessType item = none)
    (hcp : asBool (index item "can_publish_or_update") = some true)
    (hpre : processItems w pre st = (RunEnd.completed, st1)) :
    ∃ more,
      (processItems w (pre ++ JVal.obj item :: post) st).2.calls
        = st1.calls ++
            [Call.postPublish id st1.vars.accessToken,
             Call.getTelegram ("https://api.telegram.org/bot" ++ st1.vars.telegramToken
               ++ "/sendMessage?chat_id=" ++ st1.vars.telegramChatId
               ++ "&text=" ++ ("Успешно поднято " ++ title))] ++ more
      ∧ processItems w (pre ++ JVal.obj item :: post) st
        = processItems w post (SendToTelegram w ("Успешно поднято " ++ title)
            (resumeUpdate w id (st1.log (LogLine.resume title id))))
      ∧ (post = [] →
          more = [] ∧ (processItems w (pre ++ JVal.obj item :: post) st).1 = RunEnd.completed) :=
  processItems_reach_publish w item id title pre post st st1 hid htitle
    (checkAccess_absent item habsent) hcp hpre

/-- Witness of the amended C3: a skipped item, then the item r1 without an
`access` field. -/
theorem publish_absent_access_witness :
    (asString (index (noAccessItem "r1" "Dev") "id") = some "r1"
      ∧ asString (index (noAccessItem "r1" "Dev") "title") = some "Dev"
      ∧ accessType (noAccessItem "r1" "Dev") = none
      ∧ asBool (index (noAccessItem "r1" "Dev") "can_publish_or_update") = some true
      ∧ processItems (sampleWorld [] "") [JVal.obj (resumeItem "r0" "Old" "site" true)]
          listedState
        = (RunEnd.completed,
            { vars := sampleVars, calls := [Call.getMine "at0"],
              logs := [LogLine.resume "Old" "r0", LogLine.notVisibleForClients] }))
    ∧ (processItems (sampleWorld [] "")
        ([JVal.obj (resumeItem "r0" "Old" "site" true)]
          ++ JVal.obj (noAccessItem "r1" "Dev") :: []) listedState).2.calls
      = [Call.getMine "at0", Call.postPublish "r1" "at0",
          Call.getTelegram
            "https://api.telegram.org/bottg/sendMessage?chat_id=42&text=Успешно поднято Dev"] := by
  refine ⟨⟨by decide, by decide, rfl, by decide, by decide⟩, ?_⟩
  obtain ⟨more, hcalls, _, hlast⟩ :=
    publish_absent_access (sampleWorld [] "") (noAccessItem "r1" "Dev") "r1" "Dev"
      [JVal.obj (resumeItem "r0" "Old" "site" true)] [] listedState
      { vars := sampleVars, calls := [Call.getMine "at0"],
        logs := [LogLine.resume "Old" "r0", LogLine.notVisibleForClients] }
      (by decide) (by decide) rfl (by decide) (by decide)
  rw [hcalls, (hlast rfl).1]
  decide

/-- Counterexample to C3 as stated: a listing whose only item has no `access`
field and has `can_publish_or_update` set; the run publishes it and notifies. -/
theorem absent_access_not_skipped :
    accessType (noAccessItem "r1" "Dev") = none
    ∧ main (sampleWorld [JVal.obj (noAccessItem "r1" "Dev")] "") false sampleVars
      = (RunEnd.completed,
          { vars := sampleVars,
            calls := [Call.getMine "at0", Call.postPublish "r1" "at0",
              Call.getTelegram
                "https://api.telegram.org/bottg/sendMessage?chat_id=42&text=Успешно поднято Dev"],
            logs := [LogLine.resume "Dev" "r1", LogLine.resumeUpdated] }) :=
  ⟨rfl, by decide⟩

/-- C4 at its failing input: three eligible resumes, the publish call of r2 is
answered with 403; the run logs the status and still sends the success
notification for r2 (titled Ops), between those of r1 and r3. -/
theorem notification_after_failed_publish :
    (sampleWorld threeResumes "r2").postPublish
        [Call.getMine "at0", Call.postPublish "r1" "at0",
          Call.getTelegram (telegramUrl sampleVars (successMessage "Dev")),
          Call.postPublish "r2" "at0"] = PublishOutcome.resp 403
    ∧ main (sampleWorld threeResumes "r2") false sampleVars
      = (RunEnd.completed,
          { vars := sampleVars,
            calls := [Call.getMine "at0",
              Call.postPublish "r1" "at0",
              Call.getTelegram
                "https://api.telegram.org/bottg/sendMessage?chat_id=42&text=Успешно поднято Dev",
              Call.postPublish "r2" "at0",
              Call.getTelegram
                "https://api.telegram.org/bottg/sendMessage?chat_id=42&text=Успешно поднято Ops",
              Call.postPublish "r3" "at0",
              Call.getTelegram
                "https://api.telegram.org/bottg/sendMessage?chat_id=42&text=Успешно поднято QA"],
            logs := [LogLine.resume "Dev" "r1", LogLine.resumeUpdated,
              LogLine.resume "Ops" "r2", LogLine.resumeUpdateStatusCode 403,
              LogLine.resume "QA" "r3", LogLine.resumeUpdated] }) :=
  ⟨by decide, by decide⟩

/-- C5: for a listing made of eligible resumes only, whatever the publish calls
return, the loop runs to its end and makes the publish call and the notification
of every resume, in listing order: the ids of its publish calls are the ids of
the listed resumes, one each, in the order of the listing. -/
theorem publish_failure_does_not_stop (w : World) (rs : List (JVal × String × String))
    (st : St) (h : ∀ r ∈ rs, eligible r.1 r.2.1 r.2.2 = true) :
    (processItems w (rs.map Prod.fst) st).1 = RunEnd.completed
      ∧ (processItems w (rs.map Prod.fst) st).2.calls
          = st.calls ++ expectedCalls st.vars (rs.map Prod.snd)
      ∧ publishedIds (processItems w (rs.map Prod.fst) st).2.calls
          = publishedIds st.calls ++ rs.map (fun r => r.2.1) := by
  obtain ⟨hend, _, hcalls⟩ := processItems_eligible w rs h st
  refine ⟨hend, hcalls, ?_⟩
  rw [hcalls, publishedIds_append, publishedIds_expectedCalls]
  simp [Function.comp_def]

/-- Witness of C5: three eligible resumes, the publish call of the second of
which is answered with 403. -/
theorem publish_failure_does_not_stop_witness :
    (∀ r ∈ [(JVal.obj (resumeItem "r1" "Dev" "clients" true), "r1", "Dev"),
          (JVal.obj (resumeItem "r2" "Ops" "clients" true), "r2", "Ops"),
          (JVal.obj (resumeItem "r3" "QA" "clients" true), "r3", "QA")],
        eligible r.1 r.2.1 r.2.2 = true)
    ∧ (sampleWorld [] "r2").postPublish
        [Call.getMine "at0", Call.postPublish "r1" "at0",
          Call.getTelegram (telegramUrl sampleVars (successMessage "Dev")),
          Call.postPublish "r2" "at0"] = PublishOutcome.resp 403
    ∧ publishedIds (processItems (sampleWorld [] "r2")
        ([(JVal.obj (resumeItem "r1" "Dev" "clients" true), "r1", "Dev"),
          (JVal.obj (resumeItem "r2" "Ops" "clients" true), "r2", "Ops"),
          (JVal.obj (resumeItem "r3" "QA" "clients" true), "r3", "QA")].map Prod.fst)
        listedState).2.calls = publishedIds listedState.calls ++ ["r1", "r2", "r3"] :=
  ⟨by decide, by decide,
    (publish_failure_does_not_stop (sampleWorld [] "r2")
      [(JVal.obj (resumeItem "r1" "Dev" "clients" true), "r1", "Dev"),
        (JVal.obj (resumeItem "r2" "Ops" "clients" true), "r2", "Ops"),
        (JVal.obj (resumeItem "r3" "QA" "clients" true), "r3", "QA")]
      listedState (by decide)).2.2⟩

/-- C6, as the code has it: when the first listing attempt fails and the refresh
that follows fails too (its request fails, or its response has a status other
than OK), the run does not stop there: `refreshToken` reports nothing to `main`,
which makes the second listing attempt with the unchanged access token and goes
on with whatever that attempt returns. When the second attempt fails as well,
the run ends at the decoding error with exactly these three calls made, so
without any publish call or notification. -/
theorem retry_after_rejected_refresh (w : World) (printAll : Bool) (envVars : EnvVars)
    (hlist : (w.getMine [Call.getMine envVars.accessToken]).body = none)
    (hrej : (w.postToken [Call.getMine envVars.accessToken,
        Call.postToken envVars.refreshToken]).rejected = true) :
    (∃ st3, main w printAll envVars
        = processBody w printAll
            (w.getMine [Call.getMine envVars.accessToken, Call.postToken envVars.refreshToken,
              Call.getMine envVars.accessToken]).body st3
      ∧ st3.vars = envVars
      ∧ st3.calls = [Call.getMine envVars.accessToken, Call.postToken envVars.refreshToken,
          Call.getMine envVars.accessToken])
    ∧ ((w.getMine [Call.getMine envVars.accessToken, Call.postToken envVars.refreshToken,
          Call.getMine envVars.accessToken]).body = none →
        (main w printAll envVars).1 = RunEnd.decodeError
        ∧ (main w printAll envVars).2.calls
            = [Call.getMine envVars.accessToken, Call.postToken envVars.refreshToken,
                Call.getMine envVars.accessToken]) := by
  obtain ⟨st1, hv1, hc1, hmain⟩ := main_retry w printAll envVars hlist
  have hrej1 : (w.postToken (st1.calls ++ [Call.postToken st1.vars.refreshToken])).rejected
      = true := by
    rw [hc1, hv1]; exact hrej
  obtain ⟨hret, hv2, hc2⟩ := refreshToken_rejected w st1 hrej1
  rcases hr : refreshToken w st1 with ⟨e, st2⟩
  rw [hr] at hret hv2 hc2 hmain
  simp only at hret hv2 hc2
  subst hret
  simp only at hmain
  have hv3 : (getAllMine w st2).2.vars = envVars := by
    rw [getAllMine_vars, hv2, hv1]
  have hc3 : (getAllMine w st2).2.calls
      = [Call.getMine envVars.accessToken, Call.postToken envVars.refreshToken,
          Call.getMine envVars.accessToken] := by
    rw [getAllMine_calls, hc2, hv2, hc1, hv1]; rfl
  have hb3 : (getAllMine w st2).1
      = (w.getMine [Call.getMine envVars.accessToken, Call.postToken envVars.refreshToken,
          Call.getMine envVars.accessToken]).body := by
    rw [getAllMine_fst, hc2, hv2, hc1, hv1]; rfl
  rw [hb3] at hmain
  refine ⟨⟨(getAllMine w st2).2, hmain, hv3, hc3⟩, ?_⟩
  intro hnone
  rw [hmain, hnone, processBody_nil]
  exact ⟨rfl, hc3⟩

/-- Witness of the amended C6: the listing and the refresh are answered with
401 and 400, the second listing attempt with 401 again. -/
theorem retry_after_rejected_refresh_witness :
    (rejectingWorld.getMine
          [Call.getMine sampleVars.accessToken]).body = none
    ∧ (rejectingWorld.postToken
          [Call.getMine sampleVars.accessToken,
            Call.postToken sampleVars.refreshToken]).rejected = true
    ∧ (main rejectingWorld false sampleVars).1 = RunEnd.decodeError
    ∧ (main rejectingWorld false sampleVars).2.calls
        = [Call.getMine sampleVars.accessToken, Call.postToken sampleVars.refreshToken,
            Call.getMine sampleVars.accessToken] :=
  ⟨rfl, by decide,
    (retry_after_rejected_refresh rejectingWorld false sampleVars rfl (by decide)).2 rfl⟩

/-- Counterexample to C6 as stated: the first listing attempt fails in
transport and the refresh is rejected with 400, yet the run makes a second
listing attempt, and as that one succeeds it publishes r1 and notifies. -/
theorem rejected_refresh_does_not_abort :
    ((flakyWorld [JVal.obj (resumeItem "r1" "Dev" "clients" true)]).getMine
        [Call.getMine "at0"]).body = none
    ∧ ((flakyWorld [JVal.obj (resumeItem "r1" "Dev" "clients" true)]).postToken
        [Call.getMine "at0", Call.postToken "rt0"]).rejected = true
    ∧ main (flakyWorld [JVal.obj (resumeItem "r1" "Dev" "clients" true)]) false sampleVars
      = (RunEnd.completed,
          { vars := sampleVars,
            calls := [Call.getMine "at0", Call.postToken "rt0", Call.getMine "at0",
              Call.postPublish "r1" "at0",
              Call.getTelegram
                "https://api.telegram.org/bottg/sendMessage?chat_id=42&text=Успешно поднято Dev"],
            logs := [LogLine.errSendingRequest, LogLine.refreshStatusCodeError 400,
              LogLine.refreshBody, LogLine.resume "Dev" "r1", LogLine.resumeUpdated] }) :=
  ⟨rfl, by decide, by decide⟩

/-- C7, as the code has it: a run has one refresh-and-retry cycle at most. Every
run makes at most one refresh attempt and one or two listing attempts. When the
first listing call fails, the run makes exactly one refresh attempt, and
exactly two listing attempts when the refresh call returns to `main`, whatever
the second attempt returns; when the refresh call ends the process instead,
there is one listing attempt, no publish call and no notification. When every
listing call fails, the run makes exactly one refresh attempt, no publish call
and no notification, and does not complete; with a refresh call that returns it
makes exactly two listing attempts and ends at the decoding error. When the
first listing call succeeds, the run makes exactly one listing attempt and no
refresh attempt. -/
theorem one_refresh_cycle (w : World) (printAll : Bool) (envVars : EnvVars) :
    (refreshAttempts (main w printAll envVars).2.calls ≤ 1
      ∧ 1 ≤ listAttempts (main w printAll envVars).2.calls
      ∧ listAttempts (main w printAll envVars).2.calls ≤ 2
      ∧ listAttempts (main w printAll envVars).2.calls
          ≤ refreshAttempts (main w printAll envVars).2.calls + 1)
    ∧ ((w.getMine [Call.getMine envVars.accessToken]).body = none →
      refreshAttempts (main w printAll envVars).2.calls = 1
      ∧ ((refreshToken w (getAllMine w { vars := envVars, calls := [], logs := [] }).2).1
            = Exit.returned →
          listAttempts (main w printAll envVars).2.calls = 2)
      ∧ ((refreshToken w (getAllMine w { vars := envVars, calls := [], logs := [] }).2).1
            ≠ Exit.returned →
          listAttempts (main w printAll envVars).2.calls = 1
          ∧ publishCalls (main w printAll envVars).2.calls = 0
          ∧ notifications (main w printAll envVars).2.calls = 0
          ∧ (main w printAll envVars).1 ≠ RunEnd.completed))
    ∧ ((∀ calls, (w.getMine calls).body = none) →
      refreshAttempts (main w printAll envVars).2.calls = 1
      ∧ publishCalls (main w printAll envVars).2.calls = 0
      ∧ notifications (main w printAll envVars).2.calls = 0
      ∧ (main w printAll envVars).1 ≠ RunEnd.completed
      ∧ ((refreshToken w (getAllMine w { vars := envVars, calls := [], logs := [] }).2).1
            = Exit.returned →
          listAttempts (main w printAll envVars).2.calls = 2
          ∧ (main w printAll envVars).1 = RunEnd.decodeError)
      ∧ ((refreshToken w (getAllMine w { vars := envVars, calls := [], logs := [] }).2).1
            ≠ Exit.returned →
          listAttempts (main w printAll envVars).2.calls = 1))
    ∧ ((w.getMine [Call.getMine envVars.accessToken]).body ≠ none →
      listAttempts (main w printAll envVars).2.calls = 1
      ∧ refreshAttempts (main w printAll envVars).2.calls = 0) := by
  refine ⟨?_, main_counts_retry w printAll envVars, ?_, main_counts_listed w printAll envVars⟩
  · cases hb : (w.getMine [Call.getMine envVars.accessToken]).body with
    | some body =>
      have h := main_counts_listed w printAll envVars (by rw [hb]; simp)
      omega
    | none =>
      obtain ⟨hr, hret, hnot⟩ := main_counts_retry w printAll envVars hb
      by_cases he : (refreshToken w
          (getAllMine w { vars := envVars, calls := [], logs := [] }).2).1 = Exit.returned
      · have := hret he
        omega
      · have := (hnot he).1
        omega
  · intro hfail
    have hf := getAllMine_fst w { vars := envVars, calls := [], logs := [] }
    have hc := getAllMine_calls w { vars := envVars, calls := [], logs := [] }
    rw [hfail] at hf
    simp only [List.nil_append] at hc
    rcases hg : getAllMine w { vars := envVars, calls := [], logs := [] } with ⟨b, st1⟩
    rw [hg] at hf hc
    simp only at hf hc
    subst hf
    have hcnt := refreshToken_counts w st1
    rw [hc] at hcnt
    simp only [main, hg]
    rcases hr : refreshToken w st1 with ⟨e, st2⟩
    rw [hr] at hcnt
    simp only at hcnt
    obtain ⟨hl, hrf, hp, hn⟩ := hcnt
    cases e with
    | returned =>
      have hf2 := getAllMine_fst w st2
      rw [hfail] at hf2
      have hc2 := getAllMine_calls w st2
      have hcnt2 := counts_append_getMine st2.calls st2.vars.accessToken
      simp only [hf2, processBody_nil, St.log_calls, hc2, hcnt2.1, hcnt2.2.1, hcnt2.2.2.1,
        hcnt2.2.2.2, hl, hrf, hp, hn]
      simp [listAttempts, refreshAttempts, publishCalls, notifications, Call.isGetMine,
        Call.isPostToken, Call.isPostPublish, Call.isGetTelegram]
    | panicked =>
      simp only [hl, hrf, hp, hn]
      simp [listAttempts, refreshAttempts, publishCalls, notifications, Call.isGetMine,
        Call.isPostToken, Call.isPostPublish, Call.isGetTelegram]
    | fatal =>
      simp only [hl, hrf, hp, hn]
      simp [listAttempts, refreshAttempts, publishCalls, notifications, Call.isGetMine,
        Call.isPostToken, Call.isPostPublish, Call.isGetTelegram]

/-- Witness of the amended C7: a world in which every listing attempt is
answered with 401 and the refresh with a new token pair that is saved; a world
in which the first listing attempt fails, the refresh is rejected and the
second attempt succeeds; and a world in which the first attempt succeeds. -/
theorem one_refresh_cycle_witness :
    ((∀ calls, (expiredWorld.getMine calls).body = none)
      ∧ (refreshToken expiredWorld
          (getAllMine expiredWorld { vars := sampleVars, calls := [], logs := [] }).2).1
          = Exit.returned
      ∧ refreshAttempts (main expiredWorld false sampleVars).2.calls = 1
      ∧ listAttempts (main expiredWorld false sampleVars).2.calls = 2
      ∧ (main expiredWorld false sampleVars).1 = RunEnd.decodeError)
    ∧ (((flakyWorld threeResumes).getMine [Call.getMine sampleVars.accessToken]).body = none
      ∧ (refreshToken (flakyWorld threeResumes)
          (getAllMine (flakyWorld threeResumes)
            { vars := sampleVars, calls := [], logs := [] }).2).1 = Exit.returned
      ∧ refreshAttempts (main (flakyWorld threeResumes) false sampleVars).2.calls = 1
      ∧ listAttempts (main (flakyWorld threeResumes) false sampleVars).2.calls = 2)
    ∧ (((sampleWorld [] "").getMine [Call.getMine sampleVars.accessToken]).body ≠ none
      ∧ listAttempts (main (sampleWorld [] "") false sampleVars).2.calls = 1
      ∧ refreshAttempts (main (sampleWorld [] "") false sampleVars).2.calls = 0) :=
  ⟨⟨fun _ => rfl, by decide,
      ((one_refresh_cycle expiredWorld false sampleVars).2.2.1 (fun _ => rfl)).1,
      (((one_refresh_cycle expiredWorld false sampleVars).2.2.1 (fun _ => rfl)).2.2.2.2.1
        (by decide)).1,
      (((one_refresh_cycle expiredWorld false sampleVars).2.2.1 (fun _ => rfl)).2.2.2.2.1
        (by decide)).2⟩,
    ⟨rfl, by decide,
      ((one_refresh_cycle (flakyWorld threeResumes) false sampleVars).2.1 rfl).1,
      ((one_refresh_cycle (flakyWorld threeResumes) false sampleVars).2.1 rfl).2.1
        (by decide)⟩,
    ⟨by simp [sampleWorld, MineOutcome.body, StatusOK],
      (one_refresh_cycle (sampleWorld [] "") false sampleVars).2.2.2
        (by simp [sampleWorld, MineOutcome.body, StatusOK])⟩⟩

/-- Counterexample to C7 as stated: every listing attempt fails, the refresh
returns a new token pair, and the credentials file cannot be created: the
process ends in `logger.Fatal` after one listing attempt, not two. -/
theorem fatal_save_stops_before_retry :
    (∀ calls, (readOnlyWorld.getMine calls).body = none)
    ∧ main readOnlyWorld false sampleVars
      = (RunEnd.fatal,
          { vars := { sampleVars with accessToken := "at1", refreshToken := "rt1" },
            calls := [Call.getMine "at0", Call.postToken "rt0", Call.createEnvFile],
            logs := [LogLine.mineStatusCodeError 401, LogLine.mineBody,
              LogLine.tokenRefreshed, LogLine.fatalCreate] })
    ∧ listAttempts (main readOnlyWorld false sampleVars).2.calls = 1 :=
  ⟨fun _ => rfl, by decide, by decide⟩

/-- C8: a refresh whose request fails or whose response has a status other than
OK returns with the credentials as they were (so with the same access and
refresh token) and with the refresh attempt as its only call: nothing is
written to the credentials file. Hence, when the server rejects a second
refresh as well, the second attempt posts the same refresh token as the first
and again returns with the credentials unchanged. -/
theorem failed_refresh_keeps_tokens (w : World) (st : St)
    (h : (w.postToken (st.calls ++ [Call.postToken st.vars.refreshToken])).rejected = true) :
    ((refreshToken w st).1 = Exit.returned
      ∧ (refreshToken w st).2.vars = st.vars
      ∧ (refreshToken w st).2.calls = st.calls ++ [Call.postToken st.vars.refreshToken])
    ∧ ((w.postToken (st.calls ++ [Call.postToken st.vars.refreshToken,
          Call.postToken st.vars.refreshToken])).rejected = true →
        (refreshToken w (refreshToken w st).2).1 = Exit.returned
        ∧ (refreshToken w (refreshToken w st).2).2.vars = st.vars
        ∧ (refreshToken w (refreshToken w st).2).2.calls
            = st.calls ++ [Call.postToken st.vars.refreshToken,
                Call.postToken st.vars.refreshToken]) := by
  obtain ⟨hret, hv, hc⟩ := refreshToken_rejected w st h
  refine ⟨⟨hret, hv, hc⟩, ?_⟩
  intro h2
  have h2' : (w.postToken ((refreshToken w st).2.calls
      ++ [Call.postToken (refreshToken w st).2.vars.refreshToken])).rejected = true := by
    rw [hc, hv, List.append_assoc]; exact h2
  obtain ⟨hret2, hv2, hc2⟩ := refreshToken_rejected w (refreshToken w st).2 h2'
  refine ⟨hret2, hv2.trans hv, ?_⟩
  rw [hc2, hc, hv, List.append_assoc]
  rfl

/-- Witness of C8: two refreshes against a server that answers 400. -/
theorem failed_refresh_keeps_tokens_witness :
    (rejectingWorld.postToken
        (listedState.calls ++ [Call.postToken listedState.vars.refreshToken])).rejected = true
    ∧ ((refreshToken rejectingWorld listedState).1 = Exit.returned
      ∧ (refreshToken rejectingWorld listedState).2.vars = listedState.vars
      ∧ (refreshToken rejectingWorld listedState).2.calls
          = listedState.calls ++ [Call.postToken listedState.vars.refreshToken])
    ∧ ((refreshToken rejectingWorld (refreshToken rejectingWorld listedState).2).1
          = Exit.returned
      ∧ (refreshToken rejectingWorld (refreshToken rejectingWorld listedState).2).2.vars
          = listedState.vars
      ∧ (refreshToken rejectingWorld (refreshToken rejectingWorld listedState).2).2.calls
          = listedState.calls ++ [Call.postToken listedState.vars.refreshToken,
              Call.postToken listedState.vars.refreshToken]) :=
  ⟨by decide, (failed_refresh_keeps_tokens rejectingWorld listedState (by decide)).1,
    (failed_refresh_keeps_tokens rejectingWorld listedState (by decide)).2 (by decide)⟩

/-- C9: when the refresh is answered with status OK and a JSON object whose
`access_token` and `refresh_token` are strings, and the credentials file can be
created, `refreshToken` returns with both tokens equal to the values of the
response and all other fields of the credentials unchanged, after having
created the file and written the six lines to it: the client id, the client
secret and the two notifier settings with their old values, and the
`ACCESS_TOKEN` and `REFRESH_TOKEN` lines with the new values. -/
theorem successful_refresh_stores_tokens (w : World) (st : St) (result : JMap)
    (access refresh : String)
    (hresp : w.postToken (st.calls ++ [Call.postToken st.vars.refreshToken])
      = TokenOutcome.resp StatusOK (some (Body.json (JVal.obj result))))
    (haccess : asString (index result "access_token") = some access)
    (hrefresh : asString (index result "refresh_token") = some refresh)
    (hcreate : w.createEnvFile
      (st.calls ++ [Call.postToken st.vars.refreshToken, Call.createEnvFile]) = true) :
    refreshToken w st
      = (Exit.returned,
          { vars :=
              { clientId := st.vars.clientId,
                clientSecret := st.vars.clientSecret,
                telegramToken := st.vars.telegramToken,
                telegramChatId := st.vars.telegramChatId,
                accessToken := access,
                refreshToken := refresh },
            calls := st.calls ++
              [Call.postToken st.vars.refreshToken,
               Call.createEnvFile,
               Call.writeString ("CLIENT_ID=" ++ st.vars.clientId ++ "\n"),
               Call.writeString ("CLIENT_SECRET=" ++ st.vars.clientSecret ++ "\n"),
               Call.writeString ("TELEGRAM_TOKEN=" ++ st.vars.telegramToken ++ "\n"),
               Call.writeString ("TELEGRAM_CHAT_ID=" ++ st.vars.telegramChatId ++ "\n"),
               Call.writeString ("ACCESS_TOKEN=" ++ access ++ "\n"),
               Call.writeString ("REFRESH_TOKEN=" ++ refresh ++ "\n")],
            logs := st.logs ++ [LogLine.tokenRefreshed, LogLine.envSaved] }) := by
  simp [refreshToken, saveEnvVarsToFile, St.call, St.log, hresp, unmarshalMap, haccess,
    hrefresh, hcreate, envFileLines]

/-- Witness of C9: the refresh of `expiredWorld` answers with the pair at1,
rt1. -/
theorem successful_refresh_stores_tokens_witness :
    (expiredWorld.postToken (listedState.calls ++ [Call.postToken listedState.vars.refreshToken])
        = TokenOutcome.resp StatusOK (some (Body.json (JVal.obj
            [("access_token", JVal.str "at1"), ("refresh_token", JVal.str "rt1")])))
      ∧ asString (index [("access_token", JVal.str "at1"), ("refresh_token", JVal.str "rt1")]
          "access_token") = some "at1"
      ∧ asString (index [("access_token", JVal.str "at1"), ("refresh_token", JVal.str "rt1")]
          "refresh_token") = some "rt1"
      ∧ expiredWorld.createEnvFile
          (listedState.calls ++ [Call.postToken listedState.vars.refreshToken,
            Call.createEnvFile]) = true)
    ∧ refreshToken expiredWorld listedState
      = (Exit.returned,
          { vars :=
              { clientId := listedState.vars.clientId,
                clientSecret := listedState.vars.clientSecret,
                telegramToken := listedState.vars.telegramToken,
                telegramChatId := listedState.vars.telegramChatId,
                accessToken := "at1",
                refreshToken := "rt1" },
            calls := listedState.calls ++
              [Call.postToken listedState.vars.refreshToken,
               Call.createEnvFile,
               Call.writeString ("CLIENT_ID=" ++ listedState.vars.clientId ++ "\n"),
               Call.writeString ("CLIENT_SECRET=" ++ listedState.vars.clientSecret ++ "\n"),
               Call.writeString ("TELEGRAM_TOKEN=" ++ listedState.vars.telegramToken ++ "\n"),
               Call.writeString ("TELEGRAM_CHAT_ID=" ++ listedState.vars.telegramChatId ++ "\n"),
               Call.writeString ("ACCESS_TOKEN=" ++ "at1" ++ "\n"),
               Call.writeString ("REFRESH_TOKEN=" ++ "rt1" ++ "\n")],
            logs := listedState.logs ++ [LogLine.tokenRefreshed, LogLine.envSaved] }) :=
  ⟨⟨rfl, by decide, by decide, by decide⟩,
    successful_refresh_stores_tokens expiredWorld listedState
      [("access_token", JVal.str "at1"), ("refresh_token", JVal.str "rt1")] "at1" "rt1"
      rfl (by decide) (by decide) (by decide)⟩

/-- C10: when a listing contains an item (a map with string `id` and `title`)
visible to clients whose `can_publish_or_update` is `false` and whose
`next_publish_at` string does not parse, the run makes exactly the calls it makes for the items before that item:
the item and all items after it get no publish call and no notification, also
when a later item could be published. The run does not complete, and when the
items before it were all processed it ends at the `return` of the parse error. -/
theorem abort_on_unparsable_time (w : World) (item : JMap) (id title next : String)
    (pre post : List JVal) (st : St)
    (hid : asString (index item "id") = some id)
    (htitle : asString (index item "title") = some title)
    (hvis : accessTypeId item = some "clients")
    (hcp : asBool (index item "can_publish_or_update") = some false)
    (hnext : asString (index item "next_publish_at") = some next)
    (hparse : w.timeParse next = false) :
    (processItems w (pre ++ JVal.obj item :: post) st).2.calls = (processItems w pre st).2.calls
      ∧ (processItems w (pre ++ JVal.obj item :: post) st).1 ≠ RunEnd.completed
      ∧ ((processItems w pre st).1 = RunEnd.completed →
          (processItems w (pre ++ JVal.obj item :: post) st).1 = RunEnd.parseTimeError) := by
  have hv : checkAccess item = Visibility.proceed := by
    rw [checkAccess_of_id item "clients" hvis]; simp
  have hstep : ∀ s : St, processItems w (JVal.obj item :: post) s
      = (RunEnd.parseTimeError,
          (s.log (LogLine.resume title id)).log LogLine.errParsingUpdateTime) := by
    intro s
    exact processItems_cons_stop w _ post s _ _
      (processItem_badTime w item id title next s hid htitle hv hcp hnext hparse)
  by_cases hc : (processItems w pre st).1 = RunEnd.completed
  · have hpre : processItems w pre st = (RunEnd.completed, (processItems w pre st).2) := by
      rw [← hc]
    rw [processItems_append_completed w pre _ st _ hpre, hstep]
    simp
  · rw [processItems_append_stopped w pre _ st hc]
    exact ⟨rfl, hc, fun h => absurd h hc⟩

/-- Witness of C10: an eligible item, then an item with the time `tomorrow`,
then another eligible item. -/
theorem abort_on_unparsable_time_witness :
    (asString (index (waitingItem "r2" "Ops" "tomorrow") "id") = some "r2"
      ∧ asString (index (waitingItem "r2" "Ops" "tomorrow") "title") = some "Ops"
      ∧ accessTypeId (waitingItem "r2" "Ops" "tomorrow") = some "clients"
      ∧ asBool (index (waitingItem "r2" "Ops" "tomorrow") "can_publish_or_update") = some false
      ∧ asString (index (waitingItem "r2" "Ops" "tomorrow") "next_publish_at") = some "tomorrow"
      ∧ (sampleWorld [] "").timeParse "tomorrow" = false)
    ∧ (processItems (sampleWorld [] "")
          ([JVal.obj (resumeItem "r1" "Dev" "clients" true)]
            ++ JVal.obj (waitingItem "r2" "Ops" "tomorrow")
            :: [JVal.obj (resumeItem "r3" "QA" "clients" true)]) listedState).2.calls
        = (processItems (sampleWorld [] "")
            [JVal.obj (resumeItem "r1" "Dev" "clients" true)] listedState).2.calls
      ∧ (processItems (sampleWorld [] "")
          ([JVal.obj (resumeItem "r1" "Dev" "clients" true)]
            ++ JVal.obj (waitingItem "r2" "Ops" "tomorrow")
            :: [JVal.obj (resumeItem "r3" "QA" "clients" true)]) listedState).1
          ≠ RunEnd.completed
      ∧ ((processItems (sampleWorld [] "")
            [JVal.obj (resumeItem "r1" "Dev" "clients" true)] listedState).1
            = RunEnd.completed →
          (processItems (sampleWorld [] "")
            ([JVal.obj (resumeItem "r1" "Dev" "clients" true)]
              ++ JVal.obj (waitingItem "r2" "Ops" "tomorrow")
              :: [JVal.obj (resumeItem "r3" "QA" "clients" true)]) listedState).1
            = RunEnd.parseTimeError) :=
  ⟨⟨by decide, by decide, by decide, by decide, by decide, by decide⟩,
    abort_on_unparsable_time (sampleWorld [] "")
      (waitingItem "r2" "Ops" "tomorrow")
      "r2" "Ops" "tomorrow" [JVal.obj (resumeItem "r1" "Dev" "clients" true)]
      [JVal.obj (resumeItem "r3" "QA" "clients" true)] listedState
      (by decide) (by decide) (by decide) (by decide) (by decide) (by decide)⟩

end HHResumeUp
